import Mathlib

/-!
Verification of the MSR605X device-protocol core: a shallow embedding of
`src/msr605x/parser.py` (frame codec and track validator) and
`src/msr605x/device.py` (HID transport), with theorems settling the spec's
properties.

Python byte strings and text are modelled as `List Nat` (byte values /
Unicode code points).  `constants.py` is not part of the sources, so its
values (`TrackSpec` maxima, `HID_REPORT_SIZE`) are parameters, modelled from
the spec.
-/

namespace MSR605X

/-- Byte strings (and Python text, as code points) are lists of naturals. -/
abbrev Bytes := List Nat

/-- `startsWith s pat`: `pat` is a prefix of `s` (the slice comparison
underlying Python `bytes.find`). -/
def startsWith : Bytes → Bytes → Bool
  | _, [] => true
  | [], _ :: _ => false
  | c :: s, p :: ps => (c == p) && startsWith s ps

/-- Scan helper for Python `bytes.find`: first position (counting from `i`)
where `pat` occurs in `s`. -/
def findAux (pat : Bytes) : Bytes → Nat → Option Nat
  | [], i => if startsWith [] pat then some i else none
  | c :: s, i => if startsWith (c :: s) pat then some i else findAux pat s (i + 1)

/-- Python `s.find(pat, start)`: index of the first occurrence of `pat` in `s`
at a position `≥ start`; `none` models Python's `-1`. -/
def pyFind (s pat : Bytes) (start : Nat) : Option Nat :=
  (findAux pat (s.drop start) 0).map (· + start)

/-- Modelled from the spec: `constants.py` is not in `src/`; §3 of the spec
gives `FormatMode`: enumeration {ISO, RAW}. -/
inductive DataFormat where
  | ISO
  | RAW
deriving DecidableEq

/-- Modelled from the spec: the `TrackSpec` table lives in the missing
`constants.py`; §4.3 specifies per-track specs with a max length
(`max_chars`) keyed by track number {1,2,3} and gives no numeric values, so
the three maxima are parameters. -/
structure TrackSpecs where
  max1 : Nat
  max2 : Nat
  max3 : Nat
deriving DecidableEq

/-- `TrackParser.TRACK1_CHARSET`: the characters of
`' !"#$%&'()*+,-./0123456789:;<=>?@ABCDEFGHIJKLMNOPQRSTUVWXYZ[\]^_'`,
i.e. exactly the contiguous code band 32–95. -/
def TRACK1_CHARSET : Bytes :=
  [32, 33, 34, 35, 36, 37, 38, 39, 40, 41, 42, 43, 44, 45, 46, 47, 48, 49,
   50, 51, 52, 53, 54, 55, 56, 57, 58, 59, 60, 61, 62, 63, 64, 65, 66, 67,
   68, 69, 70, 71, 72, 73, 74, 75, 76, 77, 78, 79, 80, 81, 82, 83, 84, 85,
   86, 87, 88, 89, 90, 91, 92, 93, 94, 95]

/-- `TrackParser.TRACK2_CHARSET`: the characters of `'0123456789:;<=>?'`,
i.e. exactly the contiguous code band 48–63. -/
def TRACK2_CHARSET : Bytes :=
  [48, 49, 50, 51, 52, 53, 54, 55, 56, 57, 58, 59, 60, 61, 62, 63]

/-- `TrackParser.TRACK3_CHARSET`: the same character literal as track 2's. -/
def TRACK3_CHARSET : Bytes :=
  [48, 49, 50, 51, 52, 53, 54, 55, 56, 57, 58, 59, 60, 61, 62, 63]

/-- The format characters `'%?;'` accepted for tracks 2/3 in
`_validate_track_data`. -/
def FORMAT_CHARS : Bytes := [37, 63, 59]

/-- The `TrackData` dataclass.  `data` holds the Python `str` as code points
(hex text in RAW mode). -/
structure TrackData where
  track_number : Nat
  data : List Nat
  raw_data : Bytes
  is_valid : Bool
  format : DataFormat
  error_message : Option String
deriving DecidableEq

/-- Characters Python's `str.strip()` removes, over the Latin-1 range (the
only range reachable here: `decode('ascii', errors='replace')` yields code
points ≤ 127 or U+FFFD). -/
def isPySpace (c : Nat) : Bool :=
  c == 9 || c == 10 || c == 11 || c == 12 || c == 13 ||
  c == 28 || c == 29 || c == 30 || c == 31 || c == 32 || c == 133 || c == 160

/-- Python `str.strip()`: drop leading and trailing whitespace. -/
def pyStrip (s : List Nat) : List Nat :=
  ((s.dropWhile isPySpace).reverse.dropWhile isPySpace).reverse

/-- Python `bytes.decode('ascii', errors='replace')`: bytes above 127 become
U+FFFD, never an exception. -/
def decodeAsciiReplace (bs : Bytes) : List Nat :=
  bs.map (fun b => if b ≤ 127 then b else 65533)

/-- `TrackParser._clean_track_data`: keep characters ≥ 32 or TAB, remove
escape characters, then strip.  (`track_num` is unused, as in the source.) -/
def cleanTrackData (data : List Nat) (_track_num : Nat) : List Nat :=
  pyStrip ((data.filter (fun c => decide (32 ≤ c) || c == 9)).filter (fun c => c != 27))

/-- The `specs` lookup of `_validate_track_data`: max length and charset per
track number, `none` for any other number (the dict's default). -/
def trackSpecOf (specs : TrackSpecs) : Nat → Option (Nat × Bytes)
  | 1 => some (specs.max1, TRACK1_CHARSET)
  | 2 => some (specs.max2, TRACK2_CHARSET)
  | 3 => some (specs.max3, TRACK3_CHARSET)
  | _ => none

/-- `TrackParser._validate_track_data`. -/
def validateTrackData (specs : TrackSpecs) (fmt : DataFormat) (data : List Nat)
    (track_num : Nat) : Bool :=
  if data = [] then false
  else
    match trackSpecOf specs track_num with
    | none => false
    | some (maxChars, charset) =>
      if maxChars < data.length then false
      else if fmt = DataFormat.ISO then
        if track_num = 1 then
          data.all (fun c => decide (32 ≤ c) && decide (c ≤ 95))
        else
          data.all (fun c => charset.contains c || FORMAT_CHARS.contains c)
      else true

/-- One hex digit (lowercase), as in Python `bytes.hex()`. -/
def hexDigit (n : Nat) : Nat := if n < 10 then 48 + n else 87 + n

/-- Python `bytes.hex()` as a list of code points. -/
def hexChars (bs : Bytes) : List Nat :=
  bs.foldr (fun b acc => hexDigit (b / 16) :: hexDigit (b % 16) :: acc) []

/-- `TrackParser._extract_track`.  Every step of the source body is total
(`find`, slicing, `decode(errors='replace')` cannot raise), so the source's
catch-all `except` branches are unreachable and do not appear. -/
def extractTrack (specs : TrackSpecs) (fmt : DataFormat) (response : Bytes)
    (track_num : Nat) (raw : Bool) : Option TrackData :=
  match pyFind response [27, track_num] 0 with
  | none => none
  | some start_idx =>
    let data_start := start_idx + 2
    let end_idx :=
      match pyFind response [28] data_start with
      | some e => e
      | none =>
        match pyFind response [27, track_num + 1] data_start with
        | some e => e
        | none =>
          match pyFind response [27, 48] data_start with
          | some e => e
          | none => response.length
    let raw_data := (response.take end_idx).drop data_start
    if raw then
      some ⟨track_num, hexChars raw_data, raw_data, decide (0 < raw_data.length),
            DataFormat.RAW, none⟩
    else
      let cleaned := cleanTrackData (decodeAsciiReplace raw_data) track_num
      let ok := validateTrackData specs fmt cleaned track_num
      some ⟨track_num, cleaned, raw_data, ok, fmt,
            if ok then none else some "Invalid characters in track data"⟩

/-- `TrackParser.parse_iso_response` (`fmt` is the parser's `_data_format`
state; a `TrackData` instance is always truthy, so `if track_data:` keeps
every `some`). -/
def parseIsoResponse (specs : TrackSpecs) (fmt : DataFormat) (response : Bytes) :
    List TrackData :=
  [1, 2, 3].filterMap (fun tn => extractTrack specs fmt response tn false)

/-- `TrackParser.parse_raw_response`. -/
def parseRawResponse (specs : TrackSpecs) (fmt : DataFormat) (response : Bytes) :
    List TrackData :=
  [1, 2, 3].filterMap (fun tn => extractTrack specs fmt response tn true)

/-- Python truthiness of an optional string / byte string: `None` and the
empty value are falsy. -/
def pyTruthy : Option (List Nat) → Bool
  | none => false
  | some s => !s.isEmpty

/-- Python `str.upper()` restricted to the ASCII range (theorem inputs are
kept ASCII, where this is exact). -/
def asciiUpper (c : Nat) : Nat := if 97 ≤ c ∧ c ≤ 122 then c - 32 else c

/-- Python `str.encode('ascii')`: identity on code points ≤ 127, raises
(modelled `none`) otherwise. -/
def encodeAscii (s : List Nat) : Option Bytes :=
  if s.all (fun c => decide (c ≤ 127)) then some s else none

/-- `TrackParser.build_iso_write_data`: `ESC 's'`, then for each track its
marker, the (upper-cased, for track 1) text when truthy, and `FS`, then
`'?' FS`.  `none` models the `UnicodeEncodeError` of non-ASCII input. -/
def buildIsoWriteData (track1 track2 track3 : Option (List Nat)) : Option Bytes :=
  (if pyTruthy track1 then encodeAscii ((track1.getD []).map asciiUpper) else some []).bind
    fun p1 =>
      (if pyTruthy track2 then encodeAscii (track2.getD []) else some []).bind
        fun p2 =>
          (if pyTruthy track3 then encodeAscii (track3.getD []) else some []).bind
            fun p3 =>
              some ([27, 115] ++ ([27, 1] ++ p1 ++ [28]) ++ ([27, 2] ++ p2 ++ [28]) ++
                ([27, 3] ++ p3 ++ [28]) ++ [63, 28])

/-- The bytes `build_raw_write_data` appends for one track: the payload when
truthy, nothing otherwise. -/
def rawSeg (t : Option Bytes) : Bytes := if pyTruthy t then t.getD [] else []

/-- `TrackParser.build_raw_write_data`. -/
def buildRawWriteData (track1 track2 track3 : Option Bytes) : Bytes :=
  [27, 115] ++ ([27, 1] ++ rawSeg track1 ++ [28]) ++
  ([27, 2] ++ rawSeg track2 ++ [28]) ++ ([27, 3] ++ rawSeg track3 ++ [28]) ++ [63, 28]

/-- The `DeviceInfo` dataclass. -/
structure DeviceInfo where
  vendor_id : Nat
  product_id : Nat
  serial_number : String
  manufacturer : String
  product : String
  path : Bytes
deriving DecidableEq

/-- Observable state of `MSR605XDevice`: `device` models
`_device is not None` (the opaque HID handle carries no further observable
state), `connected` models `_connected`, `device_info` the cached identity. -/
structure DeviceState where
  device : Bool
  connected : Bool
  device_info : Option DeviceInfo
deriving DecidableEq

/-- The `is_connected` property. -/
def isConnected (s : DeviceState) : Bool := s.connected && s.device

/-- `MSR605XDevice.disconnect`: ((success, message), new state, status
notifications emitted to the registered listener).  `close()` is modelled as
succeeding (its failure branch only reports an OS error message). -/
def disconnect (s : DeviceState) : (Bool × String) × DeviceState × List Bool :=
  if s.connected = false ∨ s.device = false then ((false, "Not connected"), s, [])
  else ((true, "Disconnected successfully"), ⟨false, false, none⟩, [false])

/-- `MSR605XDevice.send_command`: ((success, response), reports written to
the device).  `report_size` stands for `HID_REPORT_SIZE` from the missing
`constants.py` (the spec fixes no numeric value).  The OS `write` is
modelled as returning the report's length, which is never negative, so the
`bytes_written < 0` branch is unreachable. -/
def sendCommand (s : DeviceState) (command data : Bytes) (report_size : Nat) :
    (Bool × Bytes) × List Bytes :=
  if isConnected s = false then ((false, []), [])
  else
    let payload := command ++ data
    let report := 0 :: payload
    let report :=
      if report.length < report_size then
        report ++ List.replicate (report_size - report.length) 0
      else report
    ((true, []), [report])

/-- Python `bytes.rstrip(b'\x00')`. -/
def rstripZeros (s : Bytes) : Bytes := (s.reverse.dropWhile (fun c => c == 0)).reverse

/-- Whether `pat` occurs in `s` (Python `pat in s`). -/
def containsSub (s pat : Bytes) : Bool := (pyFind s pat 0).isSome

/-- The break condition of `receive_response`'s loop: at least two bytes and
either a status sentinel (`ESC '0'` / `ESC '1'`) or a field separator in the
buffer. -/
def stopCond (resp : Bytes) : Bool :=
  decide (2 ≤ resp.length) &&
    (containsSub resp [27, 48] || containsSub resp [27, 49] || containsSub resp [28])

/-- The polling loop of `receive_response`.  Real time is modelled by `fuel`
(one unit per iteration; exhaustion is the loop's timeout check) and the
device by `polls`, the chunks successive `read` calls return (`[]`: no data,
the loop sleeps and retries).  Returns the accumulated buffer and the fuel
left — positive exactly when the loop exited on the break condition. -/
def receiveLoop : Nat → List Bytes → Bytes → Bytes × Nat
  | 0, _, acc => (acc, 0)
  | fuel + 1, polls, acc =>
    match polls with
    | [] => receiveLoop fuel [] acc
    | d :: rest =>
      if d.isEmpty then receiveLoop fuel rest acc
      else
        let acc2 := acc ++ d
        if stopCond acc2 then (acc2, fuel + 1) else receiveLoop fuel rest acc2

/-- `MSR605XDevice.receive_response`: (success, response) for a connected
state, after stripping trailing zero padding. -/
def receiveResponse (s : DeviceState) (fuel : Nat) (polls : List Bytes) :
    Bool × Bytes :=
  if isConnected s = false then (false, [])
  else
    let response := rstripZeros (receiveLoop fuel polls []).1
    (decide (0 < response.length), response)

/-! ## Spec-side characterizations (used to state claims, not taken from the
source code) -/

/-- Occurrence of `pat` at index `i` of `s`. -/
def occursAt (s pat : Bytes) (i : Nat) : Prop := startsWith (s.drop i) pat = true

/-- `e` is the first occurrence of `pat` in `s` at an index `≥ start`. -/
def firstOccFrom (s pat : Bytes) (start e : Nat) : Prop :=
  start ≤ e ∧ occursAt s pat e ∧ ∀ j, start ≤ j → j < e → ¬ occursAt s pat j

/-- `pat` does not occur in `s` at any index `≥ start`. -/
def noOccFrom (s pat : Bytes) (start : Nat) : Prop :=
  ∀ j, start ≤ j → ¬ occursAt s pat j

/-- The spec's description of where a track segment ends (spec §4.2): the
first field separator at/after `ds`; when absent, the first next-track
marker; when absent, the first status marker `ESC '0'`; else the end of the
buffer. -/
def endSel (resp : Bytes) (ds tn e : Nat) : Prop :=
  firstOccFrom resp [28] ds e ∨
  (noOccFrom resp [28] ds ∧ firstOccFrom resp [27, tn + 1] ds e) ∨
  (noOccFrom resp [28] ds ∧ noOccFrom resp [27, tn + 1] ds ∧
    firstOccFrom resp [27, 48] ds e) ∨
  (noOccFrom resp [28] ds ∧ noOccFrom resp [27, tn + 1] ds ∧
    noOccFrom resp [27, 48] ds ∧ e = resp.length)

/-- The end-of-segment index computed by `_extract_track` (the `end_idx`
let-block, factored out). -/
def endIdxOf (resp : Bytes) (ds tn : Nat) : Nat :=
  match pyFind resp [28] ds with
  | some e => e
  | none =>
    match pyFind resp [27, tn + 1] ds with
    | some e => e
    | none =>
      match pyFind resp [27, 48] ds with
      | some e => e
      | none => resp.length

/-- The write-frame skeleton shared by both encoders, in cons-normal form. -/
def frameOf (p1 p2 p3 : Bytes) : Bytes :=
  27 :: 115 :: 27 :: 1 ::
    (p1 ++ (28 :: 27 :: 2 :: (p2 ++ (28 :: 27 :: 3 :: (p3 ++ [28, 63, 28])))))

/-! ## Helper lemmas -/

theorem dropWhile_head_false (p : Nat → Bool) :
    ∀ (l : List Nat) (a : Nat) (t : List Nat), l.dropWhile p = a :: t → p a = false := by
  intro l
  induction l with
  | nil => intro a t h; simp [List.dropWhile] at h
  | cons c s ih =>
    intro a t h
    by_cases hp : p c
    · rw [List.dropWhile_cons_of_pos hp] at h
      exact ih a t h
    · rw [List.dropWhile_cons_of_neg hp] at h
      cases h
      simpa using hp

theorem rstripZeros_getLast? (s : Bytes) : (rstripZeros s).getLast? ≠ some 0 := by
  unfold rstripZeros
  rw [List.getLast?_reverse]
  cases h : s.reverse.dropWhile (fun c => c == 0) with
  | nil => simp
  | cons a t =>
    have ha := dropWhile_head_false (fun c => c == 0) s.reverse a t h
    intro hc
    simp only [List.head?_cons, Option.some.injEq] at hc
    subst hc
    simp at ha

theorem rstripZeros_append (s : Bytes) :
    ∃ k, s = rstripZeros s ++ List.replicate k 0 := by
  refine ⟨(s.reverse.takeWhile (fun c => c == 0)).length, ?_⟩
  unfold rstripZeros
  have hsplit : s.reverse.takeWhile (fun c => c == 0) ++
      s.reverse.dropWhile (fun c => c == 0) = s.reverse :=
    List.takeWhile_append_dropWhile _ _
  have hrep : s.reverse.takeWhile (fun c => c == 0) =
      List.replicate (s.reverse.takeWhile (fun c => c == 0)).length 0 := by
    apply List.eq_replicate_of_mem
    intro b hb
    have := List.mem_takeWhile_imp hb
    simpa using this
  calc s = s.reverse.reverse := by rw [List.reverse_reverse]
    _ = (s.reverse.takeWhile (fun c => c == 0) ++
          s.reverse.dropWhile (fun c => c == 0)).reverse := by rw [hsplit]
    _ = (s.reverse.dropWhile (fun c => c == 0)).reverse ++
          (s.reverse.takeWhile (fun c => c == 0)).reverse := by rw [List.reverse_append]
    _ = _ := by rw [hrep]; simp

theorem receiveLoop_flatten : ∀ (fuel : Nat) (polls : List Bytes) (acc : Bytes),
    ∃ n, (receiveLoop fuel polls acc).1 = acc ++ ((polls.take n).flatten) := by
  intro fuel
  induction fuel with
  | zero => intro polls acc; exact ⟨0, by simp [receiveLoop]⟩
  | succ m ih =>
    intro polls acc
    match polls with
    | [] =>
      obtain ⟨n, hn⟩ := ih [] acc
      exact ⟨n, by simpa [receiveLoop] using hn⟩
    | d :: rest =>
      by_cases hd : d.isEmpty
      · obtain ⟨n, hn⟩ := ih rest acc
        refine ⟨n + 1, ?_⟩
        have hdnil : d = [] := by simpa [List.isEmpty_iff] using hd
        simp [receiveLoop, hd, hn, hdnil]
      · by_cases hstop : stopCond (acc ++ d)
        · exact ⟨1, by simp [receiveLoop, hd, hstop]⟩
        · obtain ⟨n, hn⟩ := ih rest (acc ++ d)
          exact ⟨n + 1, by simp [receiveLoop, hd, hstop, hn]⟩

theorem receiveLoop_stop : ∀ (fuel : Nat) (polls : List Bytes) (acc : Bytes),
    0 < (receiveLoop fuel polls acc).2 →
    stopCond (receiveLoop fuel polls acc).1 = true := by
  intro fuel
  induction fuel with
  | zero => intro polls acc h; simp [receiveLoop] at h
  | succ m ih =>
    intro polls acc h
    match polls with
    | [] =>
      have := ih [] acc
      simp only [receiveLoop] at h ⊢
      exact this h
    | d :: rest =>
      by_cases hd : d.isEmpty
      · simp only [receiveLoop, hd, if_true] at h ⊢
        exact ih rest acc h
      · by_cases hstop : stopCond (acc ++ d)
        · simp [receiveLoop, hd, hstop]
        · simp only [receiveLoop, hd, hstop] at h ⊢
          simp only [if_false, Bool.false_eq_true, if_neg, reduceIte] at h ⊢
          exact ih rest (acc ++ d) h

/-! ## Claims about the transport (C2, C3, C8) -/

/-- C2 counterexample: with report size 8, a 8-byte payload (more than the
report size minus one) is not rejected: `send_command` writes the oversized
report `0x00 ++ payload` to the device and reports success, instead of
failing with a `PayloadTooLarge` condition and not writing. -/
theorem sendCommand_oversized_payload_is_written :
    sendCommand ⟨true, true, none⟩ [1, 1, 1, 1, 1, 1, 1, 1] [] 8 =
      ((true, []), [[0, 1, 1, 1, 1, 1, 1, 1, 1]]) ∧
    8 + 1 > 8 := by
  constructor
  · rfl
  · decide

/-- C2 (amended): `send_command` performs no size check.  When connected, a
payload that fits (combined length ≤ report size − 1) is written as exactly
one report `0x00 ++ payload ++ zero padding` of the report size; an
oversized payload is still written, unpadded and untruncated, with success;
when not connected it fails without writing. -/
theorem sendCommand_report_layout (s : DeviceState) (command data : Bytes)
    (rs : Nat) :
    (isConnected s = true → (command ++ data).length + 1 ≤ rs →
      sendCommand s command data rs =
        ((true, []),
         [(0 :: (command ++ data)) ++
            List.replicate (rs - ((command ++ data).length + 1)) 0])) ∧
    (isConnected s = true → rs < (command ++ data).length + 1 →
      sendCommand s command data rs = ((true, []), [0 :: (command ++ data)])) ∧
    (isConnected s = false → sendCommand s command data rs = ((false, []), [])) := by
  refine ⟨?_, ?_, ?_⟩
  · intro hc hle
    have hlen : (0 :: (command ++ data)).length = (command ++ data).length + 1 := by simp
    by_cases hlt : (0 :: (command ++ data)).length < rs
    · simp only [sendCommand, hc, Bool.true_eq_false, if_neg, reduceIte, hlt, if_true]
      rw [hlen]
    · have : rs = (command ++ data).length + 1 := by omega
      subst this
      simp only [sendCommand, hc, Bool.true_eq_false, reduceIte, hlt, if_false]
      simp
  · intro hc hgt
    have hlt : ¬ (0 :: (command ++ data)).length < rs := by
      simp only [List.length_cons, List.length_append, List.length_nil] at hgt ⊢
      omega
    simp only [sendCommand, hc, Bool.true_eq_false, reduceIte]
    rw [if_neg hlt]
  · intro hc
    simp [sendCommand, hc]

/-- C2 witness: a 3-byte payload with report size 8 is written as one
zero-padded 8-byte report. -/
theorem sendCommand_report_layout_witness :
    sendCommand ⟨true, true, none⟩ [65] [66, 67] 8 =
      ((true, []), [[0, 65, 66, 67, 0, 0, 0, 0]]) := by
  have h := (sendCommand_report_layout ⟨true, true, none⟩ [65] [66, 67] 8).1
    (by decide) (by decide)
  simpa using h

/-- C3 counterexample: bytes that contain no status sentinel and no field
separator (here `"ab"`) still make `receive_response` return success with
those bytes once the timeout elapses — the failure-with-empty-result signal
is not returned whenever nothing sentinel-bearing arrived, only when nothing
(or only zero padding) arrived. -/
theorem receiveResponse_nonsentinel_success :
    receiveResponse ⟨true, true, none⟩ 1 [[97, 98]] = (true, [97, 98]) ∧
    stopCond [97, 98] = false := by
  constructor
  · rfl
  · rfl

/-- C3 (amended): when connected, `receive_response` accumulates polled
chunks (the returned buffer, before stripping, is the concatenation of a
prefix of the polls); it exits before the timeout only when the buffer
satisfies the break condition (status sentinel `ESC '0'`/`ESC '1'` or field
separator present, in a buffer of length ≥ 2); trailing zero bytes are
stripped; and it returns failure-with-empty-result exactly when the
accumulated bytes strip to nothing — bytes without any sentinel still yield
success once the timeout elapses. -/
theorem receiveResponse_classification (s : DeviceState) (fuel : Nat)
    (polls : List Bytes) (hc : isConnected s = true) :
    ((receiveResponse s fuel polls).1 = true ↔ (receiveResponse s fuel polls).2 ≠ []) ∧
    (receiveResponse s fuel polls).2.getLast? ≠ some 0 ∧
    (∃ n k, (polls.take n).flatten =
      (receiveResponse s fuel polls).2 ++ List.replicate k 0) ∧
    (0 < (receiveLoop fuel polls []).2 →
      stopCond (receiveLoop fuel polls []).1 = true) := by
  have hr : receiveResponse s fuel polls =
      (decide (0 < (rstripZeros (receiveLoop fuel polls []).1).length),
       rstripZeros (receiveLoop fuel polls []).1) := by
    simp [receiveResponse, hc]
  refine ⟨?_, ?_, ?_, receiveLoop_stop fuel polls []⟩
  · rw [hr]
    simp [List.length_pos]
  · rw [hr]
    exact rstripZeros_getLast? _
  · obtain ⟨n, hn⟩ := receiveLoop_flatten fuel polls []
    simp only [List.nil_append] at hn
    obtain ⟨k, hk⟩ := rstripZeros_append (receiveLoop fuel polls []).1
    refine ⟨n, k, ?_⟩
    have hsnd : (receiveResponse s fuel polls).2 =
        rstripZeros (receiveLoop fuel polls []).1 := by rw [hr]
    rw [hsnd, ← hn]
    exact hk

/-- C3 witness: a connected receive that gets the status sentinel split
across two polls returns it with success. -/
theorem receiveResponse_classification_witness :
    receiveResponse ⟨true, true, none⟩ 2 [[27], [48]] = (true, [27, 48]) ∧
    ((receiveResponse ⟨true, true, none⟩ 2 [[27], [48]]).1 = true ↔
      (receiveResponse ⟨true, true, none⟩ 2 [[27], [48]]).2 ≠ []) := by
  exact ⟨rfl, (receiveResponse_classification ⟨true, true, none⟩ 2 [[27], [48]]
    (by decide)).1⟩

/-- C8: a successful `disconnect()` closes the handle, clears the cached
identity, notifies the status listener with `false`, and leaves a state in
which every `send_command` and `receive_response` fails with the
not-connected result without writing a report or reading; `disconnect()` on
a non-connected state fails with "Not connected" and changes nothing. -/
theorem disconnect_then_commands_fail (s : DeviceState) :
    (s.connected = true → s.device = true →
      disconnect s = ((true, "Disconnected successfully"), ⟨false, false, none⟩, [false]) ∧
      (∀ command data rs,
        sendCommand ⟨false, false, none⟩ command data rs = ((false, []), [])) ∧
      (∀ fuel polls,
        receiveResponse ⟨false, false, none⟩ fuel polls = (false, []))) ∧
    (s.connected = false ∨ s.device = false →
      disconnect s = ((false, "Not connected"), s, [])) := by
  constructor
  · intro hc hd
    refine ⟨?_, ?_, ?_⟩
    · simp [disconnect, hc, hd]
    · intro command data rs
      simp [sendCommand, isConnected]
    · intro fuel polls
      simp [receiveResponse, isConnected]
  · intro h
    rcases h with h | h <;> simp [disconnect, h]

/-- C8 witness: disconnecting a connected device succeeds, and a subsequent
send writes nothing; disconnecting an already-disconnected device fails. -/
theorem disconnect_then_commands_fail_witness :
    disconnect ⟨true, true, none⟩ =
      ((true, "Disconnected successfully"), ⟨false, false, none⟩, [false]) ∧
    sendCommand ⟨false, false, none⟩ [65] [] 8 = ((false, []), []) ∧
    disconnect ⟨false, false, none⟩ = ((false, "Not connected"), ⟨false, false, none⟩, []) := by
  refine ⟨((disconnect_then_commands_fail ⟨true, true, none⟩).1 rfl rfl).1,
    ((disconnect_then_commands_fail ⟨true, true, none⟩).1 rfl rfl).2.1 [65] [] 8,
    (disconnect_then_commands_fail ⟨false, false, none⟩).2 (Or.inl rfl)⟩

/-! ## Helper lemmas for the codec and validator -/

theorem asciiUpper_le (c : Nat) (h : c ≤ 127) : asciiUpper c ≤ 127 := by
  unfold asciiUpper
  split <;> omega

theorem encodeAscii_eq (s : List Nat) (h : ∀ c ∈ s, c ≤ 127) :
    encodeAscii s = some s := by
  unfold encodeAscii
  rw [if_pos]
  simp only [List.all_eq_true, decide_eq_true_eq]
  exact h

theorem rawSeg_eq (t : Option Bytes) : rawSeg t = t.getD [] := by
  cases t with
  | none => rfl
  | some s => cases s <;> simp [rawSeg, pyTruthy]

theorem isoSegUpper (t : Option (List Nat)) (h : ∀ c ∈ t.getD [], c ≤ 127) :
    (if pyTruthy t then encodeAscii ((t.getD []).map asciiUpper) else some []) =
      some ((t.getD []).map asciiUpper) := by
  have hall : ∀ c ∈ (t.getD []).map asciiUpper, c ≤ 127 := by
    intro c hcm
    rcases List.mem_map.mp hcm with ⟨b, hb, rfl⟩
    exact asciiUpper_le b (h b hb)
  by_cases ht : pyTruthy t
  · rw [if_pos ht, encodeAscii_eq _ hall]
  · rw [if_neg ht]
    have hnil : t.getD [] = [] := by
      cases t with
      | none => rfl
      | some s =>
        cases s with
        | nil => rfl
        | cons a u => simp [pyTruthy] at ht
    rw [hnil]
    rfl

theorem isoSegPlain (t : Option (List Nat)) (h : ∀ c ∈ t.getD [], c ≤ 127) :
    (if pyTruthy t then encodeAscii (t.getD []) else some []) = some (t.getD []) := by
  by_cases ht : pyTruthy t
  · rw [if_pos ht, encodeAscii_eq _ h]
  · rw [if_neg ht]
    have hnil : t.getD [] = [] := by
      cases t with
      | none => rfl
      | some s =>
        cases s with
        | nil => rfl
        | cons a u => simp [pyTruthy] at ht
    rw [hnil]

theorem buildIso_eq (t1 t2 t3 : Option (List Nat))
    (h1 : ∀ c ∈ t1.getD [], c ≤ 127) (h2 : ∀ c ∈ t2.getD [], c ≤ 127)
    (h3 : ∀ c ∈ t3.getD [], c ≤ 127) :
    buildIsoWriteData t1 t2 t3 =
      some ([27, 115] ++ ([27, 1] ++ (t1.getD []).map asciiUpper ++ [28]) ++
        ([27, 2] ++ t2.getD [] ++ [28]) ++ ([27, 3] ++ t3.getD [] ++ [28]) ++
        [63, 28]) := by
  unfold buildIsoWriteData
  rw [isoSegUpper t1 h1, isoSegPlain t2 h2, isoSegPlain t3 h3]
  rfl

theorem contains_track23 (c : Nat) :
    (TRACK2_CHARSET.contains c || FORMAT_CHARS.contains c) = true ↔
      (48 ≤ c ∧ c ≤ 63) ∨ c = 37 := by
  simp only [TRACK2_CHARSET, FORMAT_CHARS, Bool.or_eq_true, List.contains_eq_any_beq,
    List.any_cons, List.any_nil, Bool.or_false, Bool.or_eq_true, beq_iff_eq]
  omega

theorem validateTrackData_eq_one (specs : TrackSpecs) (d : List Nat) :
    validateTrackData specs DataFormat.ISO d 1 =
      (if d = [] then false
       else if specs.max1 < d.length then false
       else d.all (fun c => decide (32 ≤ c) && decide (c ≤ 95))) := by
  by_cases hd : d = [] <;> simp [validateTrackData, trackSpecOf, hd]

theorem validateTrackData_eq_two (specs : TrackSpecs) (d : List Nat) :
    validateTrackData specs DataFormat.ISO d 2 =
      (if d = [] then false
       else if specs.max2 < d.length then false
       else d.all (fun c => TRACK2_CHARSET.contains c || FORMAT_CHARS.contains c)) := by
  by_cases hd : d = [] <;> simp [validateTrackData, trackSpecOf, hd]

theorem validateTrackData_eq_three (specs : TrackSpecs) (d : List Nat) :
    validateTrackData specs DataFormat.ISO d 3 =
      (if d = [] then false
       else if specs.max3 < d.length then false
       else d.all (fun c => TRACK3_CHARSET.contains c || FORMAT_CHARS.contains c)) := by
  by_cases hd : d = [] <;> simp [validateTrackData, trackSpecOf, hd]

theorem validateTrackData_one_iff (specs : TrackSpecs) (d : List Nat) :
    validateTrackData specs DataFormat.ISO d 1 = true ↔
      d ≠ [] ∧ d.length ≤ specs.max1 ∧ ∀ c ∈ d, 32 ≤ c ∧ c ≤ 95 := by
  rw [validateTrackData_eq_one]
  by_cases hd : d = []
  · simp [hd]
  · rw [if_neg hd]
    by_cases hlen : specs.max1 < d.length
    · simp only [hlen, if_true]
      constructor
      · intro h; exact absurd h (by simp)
      · intro h; omega
    · simp only [hlen, if_false, List.all_eq_true, Bool.and_eq_true, decide_eq_true_eq]
      constructor
      · intro h
        exact ⟨hd, by omega, h⟩
      · intro h
        exact h.2.2

theorem validateTrackData_two_three_iff (specs : TrackSpecs) (d : List Nat)
    (tn : Nat) (htn : tn = 2 ∨ tn = 3) :
    validateTrackData specs DataFormat.ISO d tn = true ↔
      d ≠ [] ∧ d.length ≤ (if tn = 2 then specs.max2 else specs.max3) ∧
        ∀ c ∈ d, (48 ≤ c ∧ c ≤ 63) ∨ c = 37 := by
  have hmain : ∀ m : Nat,
      (if d = [] then false
       else if m < d.length then false
       else d.all (fun c => TRACK2_CHARSET.contains c || FORMAT_CHARS.contains c)) =
        true ↔
      d ≠ [] ∧ d.length ≤ m ∧ ∀ c ∈ d, (48 ≤ c ∧ c ≤ 63) ∨ c = 37 := by
    intro m
    by_cases hd : d = []
    · simp [hd]
    · rw [if_neg hd]
      by_cases hlen : m < d.length
      · simp only [hlen, if_true]
        constructor
        · intro h; exact absurd h (by simp)
        · intro h; omega
      · simp only [hlen, if_false, List.all_eq_true]
        constructor
        · intro h
          exact ⟨hd, by omega, fun c hc => (contains_track23 c).mp (h c hc)⟩
        · intro h
          exact fun c hc => (contains_track23 c).mpr (h.2.2 c hc)
  have h32 : TRACK3_CHARSET = TRACK2_CHARSET := rfl
  rcases htn with rfl | rfl
  · rw [validateTrackData_eq_two]
    simpa using hmain specs.max2
  · rw [validateTrackData_eq_three, h32]
    simpa using hmain specs.max3

/-! ## Claims about the encoder and validator (C5, C6) -/

/-- C5: both write-frame encoders emit exactly the wire grammar
`ESC 's' (ESC trackNum payload FS)×3 '?' FS` in fixed track order 1,2,3,
with all three track markers always present and an omitted track
contributing an empty payload (ISO payloads are the spec's printable text,
i.e. ASCII — non-ASCII text raises in the source; track 1 is upper-cased). -/
theorem encoders_emit_wire_grammar (t1 t2 t3 : Option (List Nat))
    (r1 r2 r3 : Option Bytes)
    (h1 : ∀ c ∈ t1.getD [], c ≤ 127) (h2 : ∀ c ∈ t2.getD [], c ≤ 127)
    (h3 : ∀ c ∈ t3.getD [], c ≤ 127) :
    buildIsoWriteData t1 t2 t3 =
      some ([27, 115] ++ ([27, 1] ++ (t1.getD []).map asciiUpper ++ [28]) ++
        ([27, 2] ++ t2.getD [] ++ [28]) ++ ([27, 3] ++ t3.getD [] ++ [28]) ++
        [63, 28]) ∧
    buildRawWriteData r1 r2 r3 =
      [27, 115] ++ ([27, 1] ++ r1.getD [] ++ [28]) ++
        ([27, 2] ++ r2.getD [] ++ [28]) ++ ([27, 3] ++ r3.getD [] ++ [28]) ++
        [63, 28] := by
  refine ⟨buildIso_eq t1 t2 t3 h1 h2 h3, ?_⟩
  unfold buildRawWriteData
  rw [rawSeg_eq r1, rawSeg_eq r2, rawSeg_eq r3]

/-- C5 witness: a lowercase single-track ISO payload and a raw payload
produce the grammar with three markers each. -/
theorem encoders_emit_wire_grammar_witness :
    buildIsoWriteData (some [97]) none none =
      some [27, 115, 27, 1, 65, 28, 27, 2, 28, 27, 3, 28, 63, 28] ∧
    buildRawWriteData none (some [170]) none =
      [27, 115, 27, 1, 28, 27, 2, 170, 28, 27, 3, 28, 63, 28] := by
  have h := encoders_emit_wire_grammar (some [97]) none none none (some [170]) none
    (by decide) (by decide) (by decide)
  exact ⟨by simpa using h.1, by simpa using h.2⟩

/-- C6: validation rejects empty text for every track and mode; in ISO mode
track 1 rejects any character above ASCII 95 and accepts non-empty
uppercase-alphanumeric text within the track-1 maximum, while tracks 2 and 3
accept exactly the digits, `':;<=>?'` (codes 48–63) and the format
characters `'%?;'` (i.e. additionally 37), within their maxima. -/
theorem validation_charsets (specs : TrackSpecs) :
    (∀ fmt tn, validateTrackData specs fmt [] tn = false) ∧
    (∀ d c, c ∈ d → 95 < c → validateTrackData specs DataFormat.ISO d 1 = false) ∧
    (∀ d, d ≠ [] → d.length ≤ specs.max1 →
      (∀ c ∈ d, (48 ≤ c ∧ c ≤ 57) ∨ (65 ≤ c ∧ c ≤ 90)) →
      validateTrackData specs DataFormat.ISO d 1 = true) ∧
    (∀ d tn, tn = 2 ∨ tn = 3 →
      (validateTrackData specs DataFormat.ISO d tn = true ↔
        d ≠ [] ∧ d.length ≤ (if tn = 2 then specs.max2 else specs.max3) ∧
          ∀ c ∈ d, (48 ≤ c ∧ c ≤ 63) ∨ c = 37)) := by
  refine ⟨?_, ?_, ?_, fun d tn htn => validateTrackData_two_three_iff specs d tn htn⟩
  · intro fmt tn
    simp [validateTrackData]
  · intro d c hc hgt
    rw [← Bool.not_eq_true]
    intro hval
    have := ((validateTrackData_one_iff specs d).mp hval).2.2 c hc
    omega
  · intro d hne hlen hchars
    refine (validateTrackData_one_iff specs d).mpr ⟨hne, hlen, ?_⟩
    intro c hc
    rcases hchars c hc with h | h <;> omega

/-- C6 witness: concrete accept/reject cases for tracks 1 and 2 with the
common ISO 7811 maxima. -/
theorem validation_charsets_witness :
    validateTrackData ⟨79, 40, 107⟩ DataFormat.ISO [65, 66, 49] 1 = true ∧
    validateTrackData ⟨79, 40, 107⟩ DataFormat.ISO [65, 96] 1 = false ∧
    validateTrackData ⟨79, 40, 107⟩ DataFormat.ISO [59, 49, 61, 63] 2 = true ∧
    validateTrackData ⟨79, 40, 107⟩ DataFormat.RAW [] 3 = false := by
  refine ⟨(validation_charsets ⟨79, 40, 107⟩).2.2.1 [65, 66, 49] (by decide)
      (by decide) (by decide),
    (validation_charsets ⟨79, 40, 107⟩).2.1 [65, 96] 96 (by decide) (by decide),
    ((validation_charsets ⟨79, 40, 107⟩).2.2.2 [59, 49, 61, 63] 2 (Or.inl rfl)).mpr
      (by decide),
    (validation_charsets ⟨79, 40, 107⟩).1 DataFormat.RAW 3⟩

/-! ## Helper lemmas for the decoders -/

theorem extractTrack_none (specs : TrackSpecs) (fmt : DataFormat) (resp : Bytes)
    (tn : Nat) (rw : Bool) (h : pyFind resp [27, tn] 0 = none) :
    extractTrack specs fmt resp tn rw = none := by
  simp [extractTrack, h]

theorem extractTrack_isSome (specs : TrackSpecs) (fmt : DataFormat) (resp : Bytes)
    (tn : Nat) (rw : Bool) (h : (pyFind resp [27, tn] 0).isSome) :
    (extractTrack specs fmt resp tn rw).isSome := by
  rcases Option.isSome_iff_exists.mp h with ⟨si, hsi⟩
  simp only [extractTrack, hsi]
  split <;> simp

theorem extractTrack_track_number (specs : TrackSpecs) (fmt : DataFormat)
    (resp : Bytes) (tn : Nat) (rw : Bool) (td : TrackData)
    (h : extractTrack specs fmt resp tn rw = some td) : td.track_number = tn := by
  unfold extractTrack at h
  cases hf : pyFind resp [27, tn] 0 with
  | none => rw [hf] at h; exact absurd h (by simp)
  | some si =>
    rw [hf] at h
    cases rw with
    | false =>
      simp only [Bool.false_eq_true, reduceIte] at h
      cases h
      rfl
    | true =>
      simp only [reduceIte] at h
      cases h
      rfl

theorem extractTrack_iso_empty_invalid (specs : TrackSpecs) (fmt : DataFormat)
    (resp : Bytes) (tn : Nat) (td : TrackData)
    (h : extractTrack specs fmt resp tn false = some td) (hraw : td.raw_data = []) :
    td.is_valid = false ∧ td.error_message = some "Invalid characters in track data" := by
  unfold extractTrack at h
  cases hf : pyFind resp [27, tn] 0 with
  | none => rw [hf] at h; exact absurd h (by simp)
  | some si =>
    rw [hf] at h
    simp only [Bool.false_eq_true, reduceIte] at h
    cases h
    simp only [TrackData.raw_data] at hraw
    simp only [TrackData.is_valid, TrackData.error_message, hraw]
    have hval : validateTrackData specs fmt
        (cleanTrackData (decodeAsciiReplace []) tn) tn = false := by
      simp [cleanTrackData, decodeAsciiReplace, pyStrip, validateTrackData]
    rw [hval]
    simp

theorem extractTrack_raw_empty_invalid (specs : TrackSpecs) (fmt : DataFormat)
    (resp : Bytes) (tn : Nat) (td : TrackData)
    (h : extractTrack specs fmt resp tn true = some td) (hraw : td.raw_data = []) :
    td.is_valid = false := by
  unfold extractTrack at h
  cases hf : pyFind resp [27, tn] 0 with
  | none => rw [hf] at h; exact absurd h (by simp)
  | some si =>
    rw [hf] at h
    simp only [reduceIte] at h
    cases h
    simp only [TrackData.raw_data] at hraw
    simp [TrackData.is_valid, hraw]

theorem map_track_number_sublist (f : Nat → Option TrackData)
    (hf : ∀ k td, f k = some td → td.track_number = k) :
    ∀ l : List Nat, ((l.filterMap f).map TrackData.track_number).Sublist l := by
  intro l
  induction l with
  | nil => simp
  | cons a l ih =>
    cases hfa : f a with
    | none =>
      rw [List.filterMap_cons_none hfa]
      exact ih.cons a
    | some td =>
      rw [List.filterMap_cons_some hfa]
      simp only [List.map_cons]
      rw [hf a td hfa]
      exact ih.cons₂ a

/-! ## Claims about decoder totality and shape (C7, C9, C10) -/

/-- C7: both decoders are total on arbitrary byte input (every fallible step
of the source — `find`, slicing, `decode(errors='replace')` — is total, and
the catch-all handlers are unreachable): they always return a list of at
most three `TrackData`, and a track whose start marker is absent from the
buffer is simply omitted from the result. -/
theorem decoders_total_on_arbitrary_input (specs : TrackSpecs) (fmt : DataFormat)
    (response : Bytes) :
    (parseIsoResponse specs fmt response).length ≤ 3 ∧
    (parseRawResponse specs fmt response).length ≤ 3 ∧
    ∀ tn, pyFind response [27, tn] 0 = none →
      (∀ td ∈ parseIsoResponse specs fmt response, td.track_number ≠ tn) ∧
      (∀ td ∈ parseRawResponse specs fmt response, td.track_number ≠ tn) := by
  refine ⟨List.length_filterMap_le _ _, List.length_filterMap_le _ _, ?_⟩
  intro tn hnone
  constructor
  · intro td htd heq
    rcases List.mem_filterMap.mp htd with ⟨k, _, hk⟩
    have hkn := extractTrack_track_number specs fmt response k false td hk
    rw [heq] at hkn
    rw [hkn] at hnone
    rw [extractTrack_none specs fmt response k false hnone] at hk
    exact absurd hk (by simp)
  · intro td htd heq
    rcases List.mem_filterMap.mp htd with ⟨k, _, hk⟩
    have hkn := extractTrack_track_number specs fmt response k true td hk
    rw [heq] at hkn
    rw [hkn] at hnone
    rw [extractTrack_none specs fmt response k true hnone] at hk
    exact absurd hk (by simp)

/-- C7 witness: an arbitrary marker-free buffer yields the empty track
list from both decoders. -/
theorem decoders_total_on_arbitrary_input_witness :
    (parseIsoResponse ⟨79, 40, 107⟩ DataFormat.ISO [0, 255, 27]).length ≤ 3 ∧
    ∀ td ∈ parseIsoResponse ⟨79, 40, 107⟩ DataFormat.ISO [0, 255, 27],
      td.track_number ≠ 1 := by
  exact ⟨(decoders_total_on_arbitrary_input ⟨79, 40, 107⟩ DataFormat.ISO
      [0, 255, 27]).1,
    ((decoders_total_on_arbitrary_input ⟨79, 40, 107⟩ DataFormat.ISO
      [0, 255, 27]).2.2 1 (by decide)).1⟩

/-- C9: if a buffer contains all three start markers `ESC 1`, `ESC 2`,
`ESC 3` (as every encoder output does), both decoders return exactly three
entries; a track whose segment between its markers is empty is still
included, with `is_valid = false` (and, in the text decoder, the
invalid-characters error message) rather than omitted. -/
theorem all_markers_give_three_tracks (specs : TrackSpecs) (fmt : DataFormat)
    (response : Bytes)
    (h1 : (pyFind response [27, 1] 0).isSome)
    (h2 : (pyFind response [27, 2] 0).isSome)
    (h3 : (pyFind response [27, 3] 0).isSome) :
    (parseIsoResponse specs fmt response).length = 3 ∧
    (parseRawResponse specs fmt response).length = 3 ∧
    (∀ td ∈ parseIsoResponse specs fmt response, td.raw_data = [] →
      td.is_valid = false ∧
      td.error_message = some "Invalid characters in track data") ∧
    (∀ td ∈ parseRawResponse specs fmt response, td.raw_data = [] →
      td.is_valid = false) := by
  refine ⟨?_, ?_, ?_, ?_⟩
  · rcases Option.isSome_iff_exists.mp
      (extractTrack_isSome specs fmt response 1 false h1) with ⟨a, ha⟩
    rcases Option.isSome_iff_exists.mp
      (extractTrack_isSome specs fmt response 2 false h2) with ⟨b, hb⟩
    rcases Option.isSome_iff_exists.mp
      (extractTrack_isSome specs fmt response 3 false h3) with ⟨c, hc⟩
    simp [parseIsoResponse, ha, hb, hc]
  · rcases Option.isSome_iff_exists.mp
      (extractTrack_isSome specs fmt response 1 true h1) with ⟨a, ha⟩
    rcases Option.isSome_iff_exists.mp
      (extractTrack_isSome specs fmt response 2 true h2) with ⟨b, hb⟩
    rcases Option.isSome_iff_exists.mp
      (extractTrack_isSome specs fmt response 3 true h3) with ⟨c, hc⟩
    simp [parseRawResponse, ha, hb, hc]
  · intro td htd hraw
    rcases List.mem_filterMap.mp htd with ⟨k, _, hk⟩
    exact extractTrack_iso_empty_invalid specs fmt response k td hk hraw
  · intro td htd hraw
    rcases List.mem_filterMap.mp htd with ⟨k, _, hk⟩
    exact extractTrack_raw_empty_invalid specs fmt response k td hk hraw

/-- C9 witness: a bare three-marker buffer decodes to three invalid empty
tracks in both modes. -/
theorem all_markers_give_three_tracks_witness :
    (parseIsoResponse ⟨79, 40, 107⟩ DataFormat.ISO [27, 1, 27, 2, 27, 3]).length = 3 ∧
    (parseRawResponse ⟨79, 40, 107⟩ DataFormat.ISO [27, 1, 27, 2, 27, 3]).length = 3 := by
  exact ⟨(all_markers_give_three_tracks ⟨79, 40, 107⟩ DataFormat.ISO [27, 1, 27, 2, 27, 3]
      (by decide) (by decide) (by decide)).1,
    (all_markers_give_three_tracks ⟨79, 40, 107⟩ DataFormat.ISO [27, 1, 27, 2, 27, 3]
      (by decide) (by decide) (by decide)).2.1⟩

/-- C10: every decoder result has strictly increasing track numbers (hence
at most one entry per track) all drawn from {1, 2, 3}. -/
theorem decoder_track_numbers_sorted (specs : TrackSpecs) (fmt : DataFormat)
    (response : Bytes) :
    (((parseIsoResponse specs fmt response).map TrackData.track_number).Pairwise (· < ·) ∧
      ∀ td ∈ parseIsoResponse specs fmt response,
        td.track_number ∈ ([1, 2, 3] : List Nat)) ∧
    (((parseRawResponse specs fmt response).map TrackData.track_number).Pairwise (· < ·) ∧
      ∀ td ∈ parseRawResponse specs fmt response,
        td.track_number ∈ ([1, 2, 3] : List Nat)) := by
  have hiso := map_track_number_sublist
    (fun tn => extractTrack specs fmt response tn false)
    (fun k td h => extractTrack_track_number specs fmt response k false td h) [1, 2, 3]
  have hraw := map_track_number_sublist
    (fun tn => extractTrack specs fmt response tn true)
    (fun k td h => extractTrack_track_number specs fmt response k true td h) [1, 2, 3]
  have hpair : ([1, 2, 3] : List Nat).Pairwise (· < ·) := by decide
  constructor
  · constructor
    · exact hpair.sublist hiso
    · intro td htd
      exact hiso.subset (List.mem_map_of_mem TrackData.track_number htd)
  · constructor
    · exact hpair.sublist hraw
    · intro td htd
      exact hraw.subset (List.mem_map_of_mem TrackData.track_number htd)

/-! ## Soundness of the find model, and C4 -/

theorem findAux_some_spec (pat : Bytes) :
    ∀ (s : Bytes) (i j : Nat), findAux pat s i = some j →
      i ≤ j ∧ startsWith (s.drop (j - i)) pat = true ∧
        ∀ m, m < j - i → startsWith (s.drop m) pat = false := by
  intro s
  induction s with
  | nil =>
    intro i j h
    cases hsw : startsWith [] pat with
    | false =>
      simp only [findAux, hsw, Bool.false_eq_true, reduceIte] at h
      exact absurd h (by simp)
    | true =>
      simp only [findAux, hsw, reduceIte] at h
      cases h
      refine ⟨Nat.le_refl i, by simpa [Nat.sub_self] using hsw, ?_⟩
      intro m hm
      exact absurd hm (by omega)
  | cons c s ih =>
    intro i j h
    cases hsw : startsWith (c :: s) pat with
    | true =>
      simp only [findAux, hsw, reduceIte] at h
      cases h
      refine ⟨Nat.le_refl i, by simpa [Nat.sub_self] using hsw, ?_⟩
      intro m hm
      exact absurd hm (by omega)
    | false =>
      simp only [findAux, hsw, Bool.false_eq_true, reduceIte] at h
      obtain ⟨hij, hocc, hmin⟩ := ih (i + 1) j h
      refine ⟨by omega, ?_, ?_⟩
      · have hji : j - i = (j - (i + 1)) + 1 := by omega
        rw [hji]
        simpa using hocc
      · intro m hm
        cases m with
        | zero => simpa using hsw
        | succ m' =>
          have hm' : m' < j - (i + 1) := by omega
          simpa using hmin m' hm'

theorem findAux_none_spec (pat : Bytes) (hp : pat ≠ []) :
    ∀ (s : Bytes) (i : Nat), findAux pat s i = none →
      ∀ m, startsWith (s.drop m) pat = false := by
  intro s
  induction s with
  | nil =>
    intro i h m
    obtain ⟨p, ps, rfl⟩ : ∃ p ps, pat = p :: ps := by
      cases pat with
      | nil => exact absurd rfl hp
      | cons p ps => exact ⟨p, ps, rfl⟩
    simp [startsWith]
  | cons c s ih =>
    intro i h m
    cases hsw : startsWith (c :: s) pat with
    | true =>
      simp only [findAux, hsw, reduceIte] at h
      exact absurd h (by simp)
    | false =>
      simp only [findAux, hsw, Bool.false_eq_true, reduceIte] at h
      cases m with
      | zero => simpa using hsw
      | succ m' => simpa using ih (i + 1) h m'

theorem pyFind_some_spec {s pat : Bytes} {start e : Nat}
    (h : pyFind s pat start = some e) : firstOccFrom s pat start e := by
  unfold pyFind at h
  cases hf : findAux pat (s.drop start) 0 with
  | none => rw [hf] at h; exact absurd h (by simp)
  | some j =>
    rw [hf] at h
    simp only [Option.map_some'] at h
    cases h
    obtain ⟨-, hocc, hmin⟩ := findAux_some_spec pat (s.drop start) 0 j hf
    simp only [Nat.sub_zero] at hocc hmin
    refine ⟨by omega, ?_, ?_⟩
    · unfold occursAt
      rw [List.drop_drop] at hocc
      rwa [Nat.add_comm start j] at hocc
    · intro j' h1 h2
      unfold occursAt
      have hlt : j' - start < j := by omega
      have hres := hmin (j' - start) hlt
      rw [List.drop_drop] at hres
      have heq : start + (j' - start) = j' := by omega
      rw [heq] at hres
      simp [hres]

theorem pyFind_none_spec {s pat : Bytes} {start : Nat} (hp : pat ≠ [])
    (h : pyFind s pat start = none) : noOccFrom s pat start := by
  unfold pyFind at h
  cases hf : findAux pat (s.drop start) 0 with
  | some j => rw [hf] at h; exact absurd h (by simp)
  | none =>
    intro j hj hocc
    have hres := findAux_none_spec pat hp (s.drop start) 0 hf (j - start)
    rw [List.drop_drop] at hres
    have heq : start + (j - start) = j := by omega
    rw [heq] at hres
    unfold occursAt at hocc
    rw [hres] at hocc
    exact absurd hocc (by simp)

theorem extractTrack_some_raw_data (specs : TrackSpecs) (fmt : DataFormat)
    (response : Bytes) (tn : Nat) (rw : Bool) (si : Nat)
    (h : pyFind response [27, tn] 0 = some si) :
    ∃ td, extractTrack specs fmt response tn rw = some td ∧
      td.raw_data = (response.take (endIdxOf response (si + 2) tn)).drop (si + 2) := by
  unfold extractTrack endIdxOf
  rw [h]
  cases rw with
  | false => exact ⟨_, rfl, rfl⟩
  | true => exact ⟨_, rfl, rfl⟩

theorem endIdxOf_endSel (resp : Bytes) (ds tn : Nat) :
    endSel resp ds tn (endIdxOf resp ds tn) := by
  unfold endIdxOf
  cases h1 : pyFind resp [28] ds with
  | some e =>
    exact Or.inl (pyFind_some_spec h1)
  | none =>
    have n1 := pyFind_none_spec (by simp) h1
    cases h2 : pyFind resp [27, tn + 1] ds with
    | some e =>
      exact Or.inr (Or.inl ⟨n1, pyFind_some_spec h2⟩)
    | none =>
      have n2 := pyFind_none_spec (by simp) h2
      cases h3 : pyFind resp [27, 48] ds with
      | some e =>
        exact Or.inr (Or.inr (Or.inl ⟨n1, n2, pyFind_some_spec h3⟩))
      | none =>
        exact Or.inr (Or.inr (Or.inr ⟨n1, n2, pyFind_none_spec (by simp) h3, rfl⟩))

/-- C4: whenever the start marker `ESC tn` is found (at `si`), the extracted
segment runs from just past the marker to the end index selected exactly as
the spec says: the first field separator at/after the data start; when none
exists, the first next-track marker; when none, the first status marker
`ESC '0'`; otherwise the end of the buffer — each candidate searched from
the data start, in that priority. -/
theorem segment_end_selection (specs : TrackSpecs) (fmt : DataFormat)
    (response : Bytes) (tn : Nat) (rw : Bool) (si : Nat)
    (h : pyFind response [27, tn] 0 = some si) :
    ∃ td e, extractTrack specs fmt response tn rw = some td ∧
      td.raw_data = (response.take e).drop (si + 2) ∧
      endSel response (si + 2) tn e := by
  obtain ⟨td, htd, hraw⟩ := extractTrack_some_raw_data specs fmt response tn rw si h
  exact ⟨td, endIdxOf response (si + 2) tn, htd, hraw,
    endIdxOf_endSel response (si + 2) tn⟩

/-- C4 witness: a buffer where track 1's segment ends at the next-track
marker (no field separator), exercising the fallback priority. -/
theorem segment_end_selection_witness :
    pyFind [27, 1, 65, 27, 48, 66, 27, 2] [27, 1] 0 = some 0 ∧
    ∃ td e, extractTrack ⟨79, 40, 107⟩ DataFormat.ISO [27, 1, 65, 27, 48, 66, 27, 2]
        1 false = some td ∧
      td.raw_data = (([27, 1, 65, 27, 48, 66, 27, 2] : Bytes).take e).drop (0 + 2) ∧
      endSel [27, 1, 65, 27, 48, 66, 27, 2] (0 + 2) 1 e := by
  exact ⟨by decide, segment_end_selection ⟨79, 40, 107⟩ DataFormat.ISO
    [27, 1, 65, 27, 48, 66, 27, 2] 1 false 0 (by decide)⟩

/-- C10 witness: on a concrete two-track buffer the decoded track numbers
are strictly increasing and drawn from {1, 2, 3}. -/
theorem decoder_track_numbers_sorted_witness :
    ((parseIsoResponse ⟨79, 40, 107⟩ DataFormat.ISO
        [27, 2, 65, 28, 27, 3, 66, 28]).map TrackData.track_number).Pairwise (· < ·) ∧
    ∀ td ∈ parseIsoResponse ⟨79, 40, 107⟩ DataFormat.ISO
        [27, 2, 65, 28, 27, 3, 66, 28],
      td.track_number ∈ ([1, 2, 3] : List Nat) :=
  (decoder_track_numbers_sorted ⟨79, 40, 107⟩ DataFormat.ISO
    [27, 2, 65, 28, 27, 3, 66, 28]).1

/-! ## Locating markers inside an encoded write frame (toward C1) -/

theorem findAux_cons_ne (pat : Bytes) (x : Nat) (r : Bytes) (i : Nat)
    (h : startsWith (x :: r) pat = false) :
    findAux pat (x :: r) i = findAux pat r (i + 1) := by
  simp [findAux, h]

theorem findAux_hit (pat s : Bytes) (i : Nat) (h : startsWith s pat = true) :
    findAux pat s i = some i := by
  cases s with
  | nil => simp [findAux, h]
  | cons c t => simp [findAux, h]

theorem findAux_skip_of_ne_head (p : Nat) (ps : Bytes) (xs : Bytes)
    (hxs : ∀ c ∈ xs, c ≠ p) :
    ∀ (s : Bytes) (i : Nat),
      findAux (p :: ps) (xs ++ s) i = findAux (p :: ps) s (i + xs.length) := by
  induction xs with
  | nil => intro s i; simp
  | cons x t ih =>
    intro s i
    have hx : (x == p) = false := by
      simpa using hxs x (by simp)
    have hsw2 : startsWith (x :: (t ++ s)) (p :: ps) = false := by
      simp [startsWith, hx]
    rw [List.cons_append, findAux_cons_ne _ _ _ _ hsw2]
    rw [ih (fun c hc => hxs c (by simp [hc])) s (i + 1)]
    congr 1
    simp only [List.length_cons]
    omega

theorem findAux_skip4 (pat : Bytes) (a b c d : Nat) (r : Bytes) (i : Nat)
    (h1 : startsWith (a :: b :: c :: d :: r) pat = false)
    (h2 : startsWith (b :: c :: d :: r) pat = false)
    (h3 : startsWith (c :: d :: r) pat = false)
    (h4 : startsWith (d :: r) pat = false) :
    findAux pat (a :: b :: c :: d :: r) i = findAux pat r (i + 4) := by
  rw [findAux_cons_ne _ _ _ _ h1, findAux_cons_ne _ _ _ _ h2,
    findAux_cons_ne _ _ _ _ h3, findAux_cons_ne _ _ _ _ h4]

theorem pyFind_frame_marker1 (p1 p2 p3 : Bytes) :
    pyFind (frameOf p1 p2 p3) [27, 1] 0 = some 2 := by
  unfold pyFind frameOf
  rw [List.drop_zero]
  rw [findAux_cons_ne _ _ _ _ (by simp [startsWith])]
  rw [findAux_cons_ne _ _ _ _ (by simp [startsWith])]
  rw [findAux_hit _ _ _ (by simp [startsWith])]
  rfl

theorem pyFind_frame_marker2 (p1 p2 p3 : Bytes) (h1 : ∀ c ∈ p1, c ≠ 27) :
    pyFind (frameOf p1 p2 p3) [27, 2] 0 = some (p1.length + 5) := by
  unfold pyFind frameOf
  rw [List.drop_zero]
  rw [findAux_skip4 _ _ _ _ _ _ _ (by simp [startsWith]) (by simp [startsWith])
    (by simp [startsWith]) (by simp [startsWith])]
  rw [findAux_skip_of_ne_head 27 [2] p1 h1 _ (0 + 4)]
  rw [findAux_cons_ne _ _ _ _ (by simp [startsWith])]
  rw [findAux_hit _ _ _ (by simp [startsWith])]
  simp only [Option.map_some']
  congr 1
  omega

theorem pyFind_frame_marker3 (p1 p2 p3 : Bytes) (h1 : ∀ c ∈ p1, c ≠ 27)
    (h2 : ∀ c ∈ p2, c ≠ 27) :
    pyFind (frameOf p1 p2 p3) [27, 3] 0 =
      some (p1.length + p2.length + 8) := by
  unfold pyFind frameOf
  rw [List.drop_zero]
  rw [findAux_skip4 _ _ _ _ _ _ _ (by simp [startsWith]) (by simp [startsWith])
    (by simp [startsWith]) (by simp [startsWith])]
  rw [findAux_skip_of_ne_head 27 [3] p1 h1 _ (0 + 4)]
  rw [findAux_cons_ne _ _ _ _ (by simp [startsWith])]
  rw [findAux_cons_ne _ _ _ _ (by simp [startsWith])]
  rw [findAux_cons_ne _ _ _ _ (by simp [startsWith])]
  rw [findAux_skip_of_ne_head 27 [3] p2 h2 _ _]
  rw [findAux_cons_ne _ _ _ _ (by simp [startsWith])]
  rw [findAux_hit _ _ _ (by simp [startsWith])]
  simp only [Option.map_some']
  congr 1
  omega

theorem pyFind_frame_fs1 (p1 p2 p3 : Bytes) (h1 : ∀ c ∈ p1, c ≠ 28) :
    pyFind (frameOf p1 p2 p3) [28] 4 = some (p1.length + 4) := by
  unfold pyFind frameOf
  have hdrop : List.drop 4
      (27 :: 115 :: 27 :: 1 ::
        (p1 ++ (28 :: 27 :: 2 :: (p2 ++ (28 :: 27 :: 3 :: (p3 ++ [28, 63, 28])))))) =
      p1 ++ (28 :: 27 :: 2 :: (p2 ++ (28 :: 27 :: 3 :: (p3 ++ [28, 63, 28])))) := rfl
  rw [hdrop]
  rw [findAux_skip_of_ne_head 28 [] p1 h1 _ 0]
  rw [findAux_hit _ _ _ (by simp [startsWith])]
  simp only [Option.map_some']
  congr 1
  omega

theorem pyFind_frame_fs2 (p1 p2 p3 : Bytes) (h2 : ∀ c ∈ p2, c ≠ 28) :
    pyFind (frameOf p1 p2 p3) [28] (p1.length + 7) =
      some (p1.length + 7 + p2.length) := by
  unfold pyFind
  have hframe : frameOf p1 p2 p3 =
      (27 :: 115 :: 27 :: 1 :: (p1 ++ [28, 27, 2])) ++
        (p2 ++ (28 :: 27 :: 3 :: (p3 ++ [28, 63, 28]))) := by
    simp [frameOf]
  have hlen : (27 :: 115 :: 27 :: 1 :: (p1 ++ [28, 27, 2])).length = p1.length + 7 := by
    simp only [List.length_cons, List.length_append, List.length_nil]
    try omega
  rw [hframe, List.drop_left' hlen]
  rw [findAux_skip_of_ne_head 28 [] p2 h2 _ 0]
  rw [findAux_hit _ _ _ (by simp [startsWith])]
  simp only [Option.map_some']
  congr 1
  omega

theorem pyFind_frame_fs3 (p1 p2 p3 : Bytes) (h3 : ∀ c ∈ p3, c ≠ 28) :
    pyFind (frameOf p1 p2 p3) [28] (p1.length + p2.length + 10) =
      some (p1.length + p2.length + 10 + p3.length) := by
  unfold pyFind
  have hframe : frameOf p1 p2 p3 =
      (27 :: 115 :: 27 :: 1 :: (p1 ++ ([28, 27, 2] ++ (p2 ++ [28, 27, 3])))) ++
        (p3 ++ [28, 63, 28]) := by
    simp [frameOf]
  have hlen : (27 :: 115 :: 27 :: 1 ::
      (p1 ++ ([28, 27, 2] ++ (p2 ++ [28, 27, 3])))).length =
      p1.length + p2.length + 10 := by
    simp only [List.length_cons, List.length_append, List.length_nil]
    try omega
  rw [hframe, List.drop_left' hlen]
  rw [findAux_skip_of_ne_head 28 [] p3 h3 _ 0]
  rw [findAux_hit _ _ _ (by simp [startsWith])]
  simp only [Option.map_some']
  congr 1
  omega

theorem slice_mid (A p B : Bytes) (ds e : Nat) (hds : ds = A.length)
    (he : e = A.length + p.length) :
    ((A ++ (p ++ B)).take e).drop ds = p := by
  subst hds
  subst he
  rw [← List.append_assoc]
  rw [List.take_left' (by rw [List.length_append])]
  exact List.drop_left A p

theorem frame_slice1 (p1 p2 p3 : Bytes) :
    ((frameOf p1 p2 p3).take (p1.length + 4)).drop 4 = p1 := by
  have hframe : frameOf p1 p2 p3 =
      [27, 115, 27, 1] ++
        (p1 ++ (28 :: 27 :: 2 :: (p2 ++ (28 :: 27 :: 3 :: (p3 ++ [28, 63, 28]))))) := by
    simp [frameOf]
  rw [hframe]
  exact slice_mid _ _ _ _ _ (by simp) (by simp; omega)

theorem frame_slice2 (p1 p2 p3 : Bytes) :
    ((frameOf p1 p2 p3).take (p1.length + 7 + p2.length)).drop (p1.length + 7) = p2 := by
  have hframe : frameOf p1 p2 p3 =
      (27 :: 115 :: 27 :: 1 :: (p1 ++ [28, 27, 2])) ++
        (p2 ++ (28 :: 27 :: 3 :: (p3 ++ [28, 63, 28]))) := by
    simp [frameOf]
  rw [hframe]
  refine slice_mid _ _ _ _ _ ?_ ?_
  · simp only [List.length_cons, List.length_append, List.length_nil]
    try omega
  · simp only [List.length_cons, List.length_append, List.length_nil]
    try omega

theorem frame_slice3 (p1 p2 p3 : Bytes) :
    ((frameOf p1 p2 p3).take (p1.length + p2.length + 10 + p3.length)).drop
      (p1.length + p2.length + 10) = p3 := by
  have hframe : frameOf p1 p2 p3 =
      (27 :: 115 :: 27 :: 1 :: (p1 ++ ([28, 27, 2] ++ (p2 ++ [28, 27, 3])))) ++
        (p3 ++ [28, 63, 28]) := by
    simp [frameOf]
  rw [hframe]
  refine slice_mid _ _ _ _ _ ?_ ?_
  · simp only [List.length_cons, List.length_append, List.length_nil]
    try omega
  · simp only [List.length_cons, List.length_append, List.length_nil]
    try omega

theorem extractTrack_compute (specs : TrackSpecs) (fmt : DataFormat)
    (resp : Bytes) (tn : Nat) (rw : Bool) (si e : Nat) (p : Bytes)
    (hm : pyFind resp [27, tn] 0 = some si)
    (hfs : pyFind resp [28] (si + 2) = some e)
    (hsl : (resp.take e).drop (si + 2) = p) :
    ∃ td, extractTrack specs fmt resp tn rw = some td ∧ td.track_number = tn ∧
      td.raw_data = p ∧
      td.data = if rw then hexChars p else cleanTrackData (decodeAsciiReplace p) tn := by
  simp only [extractTrack, hm, hfs, hsl]
  cases rw with
  | true => exact ⟨_, rfl, rfl, rfl, rfl⟩
  | false => exact ⟨_, rfl, rfl, rfl, rfl⟩

theorem extract_frame_one (specs : TrackSpecs) (fmt : DataFormat) (rw : Bool)
    (p1 p2 p3 : Bytes) (h1 : ∀ c ∈ p1, c ≠ 27 ∧ c ≠ 28) :
    ∃ td, extractTrack specs fmt (frameOf p1 p2 p3) 1 rw = some td ∧
      td.track_number = 1 ∧ td.raw_data = p1 ∧
      td.data = if rw then hexChars p1 else cleanTrackData (decodeAsciiReplace p1) 1 := by
  refine extractTrack_compute specs fmt _ 1 rw 2 (p1.length + 4) p1
    (pyFind_frame_marker1 p1 p2 p3) ?_ ?_
  · have h := pyFind_frame_fs1 p1 p2 p3 (fun c hc => (h1 c hc).2)
    simpa using h
  · have h := frame_slice1 p1 p2 p3
    simpa using h

theorem extract_frame_two (specs : TrackSpecs) (fmt : DataFormat) (rw : Bool)
    (p1 p2 p3 : Bytes) (h1 : ∀ c ∈ p1, c ≠ 27 ∧ c ≠ 28)
    (h2 : ∀ c ∈ p2, c ≠ 27 ∧ c ≠ 28) :
    ∃ td, extractTrack specs fmt (frameOf p1 p2 p3) 2 rw = some td ∧
      td.track_number = 2 ∧ td.raw_data = p2 ∧
      td.data = if rw then hexChars p2 else cleanTrackData (decodeAsciiReplace p2) 2 := by
  have heq : p1.length + 5 + 2 = p1.length + 7 := by omega
  refine extractTrack_compute specs fmt _ 2 rw (p1.length + 5)
    (p1.length + 7 + p2.length) p2
    (pyFind_frame_marker2 p1 p2 p3 (fun c hc => (h1 c hc).1)) ?_ ?_
  · rw [heq]
    exact pyFind_frame_fs2 p1 p2 p3 (fun c hc => (h2 c hc).2)
  · rw [heq]
    exact frame_slice2 p1 p2 p3

theorem extract_frame_three (specs : TrackSpecs) (fmt : DataFormat) (rw : Bool)
    (p1 p2 p3 : Bytes) (h1 : ∀ c ∈ p1, c ≠ 27 ∧ c ≠ 28)
    (h2 : ∀ c ∈ p2, c ≠ 27 ∧ c ≠ 28) (h3 : ∀ c ∈ p3, c ≠ 27 ∧ c ≠ 28) :
    ∃ td, extractTrack specs fmt (frameOf p1 p2 p3) 3 rw = some td ∧
      td.track_number = 3 ∧ td.raw_data = p3 ∧
      td.data = if rw then hexChars p3 else cleanTrackData (decodeAsciiReplace p3) 3 := by
  have heq : p1.length + p2.length + 8 + 2 = p1.length + p2.length + 10 := by omega
  refine extractTrack_compute specs fmt _ 3 rw (p1.length + p2.length + 8)
    (p1.length + p2.length + 10 + p3.length) p3
    (pyFind_frame_marker3 p1 p2 p3 (fun c hc => (h1 c hc).1)
      (fun c hc => (h2 c hc).1)) ?_ ?_
  · rw [heq]
    exact pyFind_frame_fs3 p1 p2 p3 (fun c hc => (h3 c hc).2)
  · rw [heq]
    exact frame_slice3 p1 p2 p3

theorem parse_frame_iso (specs : TrackSpecs) (fmt : DataFormat) (p1 p2 p3 : Bytes)
    (h1 : ∀ c ∈ p1, c ≠ 27 ∧ c ≠ 28) (h2 : ∀ c ∈ p2, c ≠ 27 ∧ c ≠ 28)
    (h3 : ∀ c ∈ p3, c ≠ 27 ∧ c ≠ 28) :
    (parseIsoResponse specs fmt (frameOf p1 p2 p3)).map
        (fun td => (td.track_number, td.data, td.raw_data)) =
      [(1, cleanTrackData (decodeAsciiReplace p1) 1, p1),
       (2, cleanTrackData (decodeAsciiReplace p2) 2, p2),
       (3, cleanTrackData (decodeAsciiReplace p3) 3, p3)] := by
  obtain ⟨a, ha, ha1, ha2, ha3⟩ := extract_frame_one specs fmt false p1 p2 p3 h1
  obtain ⟨b, hb, hb1, hb2, hb3⟩ := extract_frame_two specs fmt false p1 p2 p3 h1 h2
  obtain ⟨c, hc, hc1, hc2, hc3⟩ := extract_frame_three specs fmt false p1 p2 p3 h1 h2 h3
  simp only [parseIsoResponse, List.filterMap_cons, ha, hb, hc, List.filterMap_nil]
  simp [ha1, ha2, ha3, hb1, hb2, hb3, hc1, hc2, hc3]

theorem parse_frame_raw (specs : TrackSpecs) (fmt : DataFormat) (p1 p2 p3 : Bytes)
    (h1 : ∀ c ∈ p1, c ≠ 27 ∧ c ≠ 28) (h2 : ∀ c ∈ p2, c ≠ 27 ∧ c ≠ 28)
    (h3 : ∀ c ∈ p3, c ≠ 27 ∧ c ≠ 28) :
    (parseRawResponse specs fmt (frameOf p1 p2 p3)).map
        (fun td => (td.track_number, td.raw_data)) =
      [(1, p1), (2, p2), (3, p3)] := by
  obtain ⟨a, ha, ha1, ha2, ha3⟩ := extract_frame_one specs fmt true p1 p2 p3 h1
  obtain ⟨b, hb, hb1, hb2, hb3⟩ := extract_frame_two specs fmt true p1 p2 p3 h1 h2
  obtain ⟨c, hc, hc1, hc2, hc3⟩ := extract_frame_three specs fmt true p1 p2 p3 h1 h2 h3
  simp only [parseRawResponse, List.filterMap_cons, ha, hb, hc, List.filterMap_nil]
  simp [ha1, ha2, hb1, hb2, hc1, hc2]

/-! ## Clean-up is the identity on well-behaved text -/

theorem isPySpace_false (c : Nat) (h1 : 32 ≤ c) (h2 : c ≤ 127) (h3 : c ≠ 32) :
    isPySpace c = false := by
  simp only [isPySpace]
  simp
  omega

theorem pyStrip_id (s : List Nat) (hchars : ∀ c ∈ s, 32 ≤ c ∧ c ≤ 127)
    (hh : s.head? ≠ some 32) (hl : s.getLast? ≠ some 32) : pyStrip s = s := by
  unfold pyStrip
  have h1 : s.dropWhile isPySpace = s := by
    cases hs : s with
    | nil => rfl
    | cons a t =>
      have ha : a ∈ s := by rw [hs]; simp
      have hb := hchars a ha
      have hane : a ≠ 32 := by
        intro hcontra
        apply hh
        rw [hs, hcontra]
        rfl
      rw [List.dropWhile_cons_of_neg]
      simp [isPySpace_false a hb.1 hb.2 hane]
  rw [h1]
  have h2 : s.reverse.dropWhile isPySpace = s.reverse := by
    cases hs : s.reverse with
    | nil => rfl
    | cons a t =>
      have ha : a ∈ s := by
        have hmem : a ∈ s.reverse := by rw [hs]; simp
        simpa using hmem
      have hb := hchars a ha
      have hane : a ≠ 32 := by
        intro hcontra
        apply hl
        have hhd : s.reverse.head? = some a := by rw [hs]; rfl
        rw [← List.head?_reverse, hhd, hcontra]
      rw [List.dropWhile_cons_of_neg]
      simp [isPySpace_false a hb.1 hb.2 hane]
  rw [h2, List.reverse_reverse]

theorem clean_decode_id (s : List Nat) (tn : Nat)
    (hchars : ∀ c ∈ s, 32 ≤ c ∧ c ≤ 127)
    (hh : s.head? ≠ some 32) (hl : s.getLast? ≠ some 32) :
    cleanTrackData (decodeAsciiReplace s) tn = s := by
  have hdec : decodeAsciiReplace s = s := by
    unfold decodeAsciiReplace
    have hcongr : s.map (fun b => if b ≤ 127 then b else 65533) = s.map id :=
      List.map_congr_left (fun a ha => by simp [(hchars a ha).2])
    rw [hcongr, List.map_id]
  rw [hdec]
  unfold cleanTrackData
  have hf1 : s.filter (fun c => decide (32 ≤ c) || c == 9) = s :=
    List.filter_eq_self.mpr (fun a ha => by simp [(hchars a ha).1])
  have hf2 : s.filter (fun c => c != 27) = s :=
    List.filter_eq_self.mpr (fun a ha => by
      have h27 := (hchars a ha).1
      simp only [bne_iff_ne, ne_eq, decide_eq_true_eq]
      omega)
  rw [hf1, hf2]
  exact pyStrip_id s hchars hh hl

theorem asciiUpper_id_of_le (s : List Nat) (h : ∀ c ∈ s, c ≤ 95) :
    s.map asciiUpper = s := by
  have hcongr : s.map asciiUpper = s.map id :=
    List.map_congr_left (fun a ha => by
      have h2 : ¬ (97 ≤ a ∧ a ≤ 122) := by have := h a ha; omega
      simp [asciiUpper, h2])
  rw [hcongr, List.map_id]

theorem pyTruthy_false_getD (t : Option (List Nat)) (h : pyTruthy t = false) :
    t.getD [] = [] := by
  cases t with
  | none => rfl
  | some s =>
    cases s with
    | nil => rfl
    | cons a u => simp [pyTruthy] at h

/-! ## C1: the round trip -/

/-- C1 counterexample: the ISO track-1 text `"A "` passes validation (all
characters in 32–95, non-empty, within the max), yet encoding then decoding
returns `"A"` — the decoder strips the trailing space — so the round trip is
not exact on every valid payload. -/
theorem round_trip_loses_trailing_space :
    validateTrackData ⟨79, 40, 107⟩ DataFormat.ISO [65, 32] 1 = true ∧
    buildIsoWriteData (some [65, 32]) none none =
      some [27, 115, 27, 1, 65, 32, 28, 27, 2, 28, 27, 3, 28, 63, 28] ∧
    (parseIsoResponse ⟨79, 40, 107⟩ DataFormat.ISO
        [27, 115, 27, 1, 65, 32, 28, 27, 2, 28, 27, 3, 28, 63, 28]).map
      TrackData.data = [[65], [], []] ∧
    ([65] : List Nat) ≠ ([65, 32] : List Nat).map asciiUpper := by
  refine ⟨by decide, by decide, by decide, by decide⟩

/-- C1 (amended): the round trip recovers each populated track exactly when,
beyond validity, the payloads avoid the decoder's sentinel and trimming
collisions: in ISO mode each populated track validates and track 1 has no
leading/trailing space (validator-valid track-1 text contains no lowercase,
so upper-casing is the identity); in RAW mode each payload contains no ESC
(27) or FS (28) byte.  Then the text decoder returns exactly tracks 1,2,3
with the original text, and the raw decoder returns the original bytes. -/
theorem write_frame_round_trip (specs : TrackSpecs) (t1 t2 t3 : Option (List Nat))
    (r1 r2 r3 : Option Bytes) (w : Bytes)
    (hv1 : pyTruthy t1 = true →
      validateTrackData specs DataFormat.ISO (t1.getD []) 1 = true)
    (hv2 : pyTruthy t2 = true →
      validateTrackData specs DataFormat.ISO (t2.getD []) 2 = true)
    (hv3 : pyTruthy t3 = true →
      validateTrackData specs DataFormat.ISO (t3.getD []) 3 = true)
    (he1 : (t1.getD []).head? ≠ some 32) (hg1 : (t1.getD []).getLast? ≠ some 32)
    (hw : buildIsoWriteData t1 t2 t3 = some w)
    (hr1 : ∀ c ∈ r1.getD [], c ≠ 27 ∧ c ≠ 28)
    (hr2 : ∀ c ∈ r2.getD [], c ≠ 27 ∧ c ≠ 28)
    (hr3 : ∀ c ∈ r3.getD [], c ≠ 27 ∧ c ≠ 28) :
    (parseIsoResponse specs DataFormat.ISO w).map
        (fun td => (td.track_number, td.data, td.raw_data)) =
      [(1, t1.getD [], t1.getD []), (2, t2.getD [], t2.getD []),
       (3, t3.getD [], t3.getD [])] ∧
    (parseRawResponse specs DataFormat.ISO (buildRawWriteData r1 r2 r3)).map
        (fun td => (td.track_number, td.raw_data)) =
      [(1, r1.getD []), (2, r2.getD []), (3, r3.getD [])] := by
  have hc1 : ∀ c ∈ t1.getD [], 32 ≤ c ∧ c ≤ 95 := by
    cases hb : pyTruthy t1 with
    | true => exact ((validateTrackData_one_iff specs _).mp (hv1 hb)).2.2
    | false => rw [pyTruthy_false_getD t1 hb]; simp
  have hc2 : ∀ c ∈ t2.getD [], (48 ≤ c ∧ c ≤ 63) ∨ c = 37 := by
    cases hb : pyTruthy t2 with
    | true =>
      exact ((validateTrackData_two_three_iff specs _ 2 (Or.inl rfl)).mp (hv2 hb)).2.2
    | false => rw [pyTruthy_false_getD t2 hb]; simp
  have hc3 : ∀ c ∈ t3.getD [], (48 ≤ c ∧ c ≤ 63) ∨ c = 37 := by
    cases hb : pyTruthy t3 with
    | true =>
      exact ((validateTrackData_two_three_iff specs _ 3 (Or.inr rfl)).mp (hv3 hb)).2.2
    | false => rw [pyTruthy_false_getD t3 hb]; simp
  have hb1 : ∀ c ∈ t1.getD [], 32 ≤ c ∧ c ≤ 127 := fun c hc => by
    have := hc1 c hc; exact ⟨this.1, by omega⟩
  have hb2 : ∀ c ∈ t2.getD [], 32 ≤ c ∧ c ≤ 127 := fun c hc => by
    have := hc2 c hc; omega
  have hb3 : ∀ c ∈ t3.getD [], 32 ≤ c ∧ c ≤ 127 := fun c hc => by
    have := hc3 c hc; omega
  have hn1 : ∀ c ∈ t1.getD [], c ≠ 27 ∧ c ≠ 28 := fun c hc => by
    have := (hb1 c hc).1; omega
  have hn2 : ∀ c ∈ t2.getD [], c ≠ 27 ∧ c ≠ 28 := fun c hc => by
    have := (hb2 c hc).1; omega
  have hn3 : ∀ c ∈ t3.getD [], c ≠ 27 ∧ c ≠ 28 := fun c hc => by
    have := (hb3 c hc).1; omega
  have he2 : (t2.getD []).head? ≠ some 32 := by
    intro hcontra
    have hmem : (32 : Nat) ∈ t2.getD [] := List.mem_of_mem_head? (by rw [hcontra]; rfl)
    have := hc2 32 hmem
    omega
  have hg2 : (t2.getD []).getLast? ≠ some 32 := by
    intro hcontra
    have hmem : (32 : Nat) ∈ (t2.getD []).reverse := List.mem_of_mem_head? (by
      rw [List.head?_reverse, hcontra]; rfl)
    have := hc2 32 (by simpa using hmem)
    omega
  have he3 : (t3.getD []).head? ≠ some 32 := by
    intro hcontra
    have hmem : (32 : Nat) ∈ t3.getD [] := List.mem_of_mem_head? (by rw [hcontra]; rfl)
    have := hc3 32 hmem
    omega
  have hg3 : (t3.getD []).getLast? ≠ some 32 := by
    intro hcontra
    have hmem : (32 : Nat) ∈ (t3.getD []).reverse := List.mem_of_mem_head? (by
      rw [List.head?_reverse, hcontra]; rfl)
    have := hc3 32 (by simpa using hmem)
    omega
  have hup : (t1.getD []).map asciiUpper = t1.getD [] :=
    asciiUpper_id_of_le _ (fun c hc => (hc1 c hc).2)
  have hframe := buildIso_eq t1 t2 t3 (fun c hc => (hb1 c hc).2)
    (fun c hc => (hb2 c hc).2) (fun c hc => (hb3 c hc).2)
  rw [hw, hup] at hframe
  have hw3 : w = frameOf (t1.getD []) (t2.getD []) (t3.getD []) := by
    have := Option.some.inj hframe
    rw [this]
    simp [frameOf]
  constructor
  · rw [hw3]
    have hparse := parse_frame_iso specs DataFormat.ISO _ _ _ hn1 hn2 hn3
    rw [clean_decode_id _ 1 hb1 he1 hg1, clean_decode_id _ 2 hb2 he2 hg2,
      clean_decode_id _ 3 hb3 he3 hg3] at hparse
    exact hparse
  · have hraww : buildRawWriteData r1 r2 r3 =
        frameOf (r1.getD []) (r2.getD []) (r3.getD []) := by
      unfold buildRawWriteData
      rw [rawSeg_eq r1, rawSeg_eq r2, rawSeg_eq r3]
      simp [frameOf]
    rw [hraww]
    exact parse_frame_raw specs DataFormat.ISO _ _ _ hr1 hr2 hr3

/-- C1 witness: a two-track ISO payload and a binary RAW payload round-trip
exactly through encode/decode. -/
theorem write_frame_round_trip_witness :
    (parseIsoResponse ⟨79, 40, 107⟩ DataFormat.ISO
        [27, 115, 27, 1, 65, 66, 28, 27, 2, 59, 49, 63, 28, 27, 3, 28, 63, 28]).map
      (fun td => (td.track_number, td.data, td.raw_data)) =
      [(1, [65, 66], [65, 66]), (2, [59, 49, 63], [59, 49, 63]), (3, [], [])] ∧
    (parseRawResponse ⟨79, 40, 107⟩ DataFormat.ISO
        (buildRawWriteData (some [170, 5]) none none)).map
      (fun td => (td.track_number, td.raw_data)) =
      [(1, [170, 5]), (2, []), (3, [])] := by
  exact write_frame_round_trip ⟨79, 40, 107⟩ (some [65, 66]) (some [59, 49, 63]) none
    (some [170, 5]) none none
    [27, 115, 27, 1, 65, 66, 28, 27, 2, 59, 49, 63, 28, 27, 3, 28, 63, 28]
    (fun _ => by decide) (fun _ => by decide) (fun h => by simp [pyTruthy] at h)
    (by decide) (by decide) (by decide)
    (by decide) (by decide) (by decide)

end MSR605X
